import Mathlib

/-
Verification of the scan-sort-present pipeline of BigFileFinder
(src/BigFileFinder.py), as a shallow embedding.

The embedding models the core of class FileScannerGUI:
* `sort_files`      — `self.file_list.sort(reverse = True, key = lambda x: x[0])`
  (a stable sort by size descending; the source comments describe it as an
  insertion sort over near-sorted data, modelled here with `List.insertionSort`);
* the scan loop of `scan_folder` — per discovered file: append to `file_list`,
  increment `file_count` and `files_since_sort`, and resort when
  `files_since_sort >= sort_threshold` (then reset the dirty counter to 0);
  per-entry OS errors are skipped;
* the terminal dispatch at the end of `scan_folder` — `finalize_scan` when
  `self.scanning` is still true (also after a fatal walk error, which only
  pops an error dialog first), `scan_cancelled` when the flag was cleared;
* `start_scan` — the `if self.scanning: return` guard followed by the reset
  of the store and counters;
* the deletion loop of `delete_selected` — per selected record: try
  `os.remove`, on success increment `deleted` and drop the exact (size, path)
  entry from `file_list` if present, on any exception append
  (path, message) to `failed` and continue.
-/

/-- A discovered file record: the `(size, path)` tuples stored in
`self.file_list`. -/
abbrev FileRec := Nat × String

/-- The sort order used by `sort_files`: `a` comes before `b` when
`a.size >= b.size` (size descending). -/
def sizeGe (a b : FileRec) : Prop := b.1 ≤ a.1

instance : DecidableRel sizeGe := fun a b => Nat.decLe b.1 a.1

instance : IsTotal FileRec sizeGe := ⟨fun a b => Nat.le_total b.1 a.1⟩

instance : IsTrans FileRec sizeGe := ⟨fun _ _ _ h1 h2 => Nat.le_trans h2 h1⟩

/-- `sort_files` (lines 205-210): sort the file list by size, largest first
(`self.file_list.sort(reverse = True, key = lambda x: x[0])`). -/
def sort_files (l : List FileRec) : List FileRec := List.insertionSort sizeGe l

/-- One item yielded while walking the tree: either a successfully stat-ed
file, or a per-entry OS error (PermissionError / FileNotFoundError / OSError)
which the loop skips (lines 192-194). -/
inductive WalkItem
  | ok (size : Nat) (path : String)
  | skipErr

/-- The scan-side state: `self.file_list`, the local `file_count` of
`scan_folder`, `self.files_since_sort` and `self.sort_threshold`. -/
structure ScanState where
  file_list : List FileRec
  file_count : Nat
  files_since_sort : Nat
  sort_threshold : Nat
deriving DecidableEq

/-- The periodic resort (lines 183-186): when `files_since_sort` has reached
`sort_threshold`, run `sort_files` and reset the dirty counter to 0;
otherwise leave the state untouched. -/
def resortIfDue (s : ScanState) : ScanState :=
  if s.sort_threshold ≤ s.files_since_sort then
    { s with file_list := sort_files s.file_list, files_since_sort := 0 }
  else s

/-- The body of the inner scan loop for one walk item (lines 170-194):
a successful entry is appended to `file_list`, both counters are bumped and
the periodic resort runs; a skipped entry changes nothing. -/
def processEntry (s : ScanState) (it : WalkItem) : ScanState :=
  match it with
  | .skipErr => s
  | .ok size path =>
      resortIfDue
        { s with
          file_list := s.file_list ++ [(size, path)],
          file_count := s.file_count + 1,
          files_since_sort := s.files_since_sort + 1 }

/-- Running the scan loop over a sequence of walk items. -/
def runScan (s : ScanState) (items : List WalkItem) : ScanState :=
  items.foldl processEntry s

/-- The scan state right after `start_scan` (lines 131-134): cleared
`file_list`, `files_since_sort = 0`, and `scan_folder`'s local
`file_count = 0`; `t` is `self.sort_threshold`. -/
def initScanState (t : Nat) : ScanState :=
  { file_list := [], file_count := 0, files_since_sort := 0, sort_threshold := t }

/-- The records of the successfully stat-ed entries of a walk, in discovery
order: exactly what the loop appends. -/
def oks : List WalkItem → List FileRec
  | [] => []
  | WalkItem.ok size path :: rest => (size, path) :: oks rest
  | WalkItem.skipErr :: rest => oks rest

/-- `sum(size for size, _ in self.file_list)` (line 240). -/
def totalSize (l : List FileRec) : Nat := (l.map Prod.fst).sum

/-- The terminal state reported at the end of a scan: `finalize_scan` reports
"Scan complete: N files found, Total size: S" and `scan_cancelled` reports
"Scan cancelled: N files found before stopping". -/
inductive Terminal
  | completed (count : Nat) (total : Nat)
  | cancelled (count : Nat)
deriving DecidableEq

/-- Whether a terminal state is the Cancelled one. -/
def Terminal.isCancelled : Terminal → Bool
  | .cancelled _ => true
  | _ => false

/-- How the walk of `scan_folder` ended: the walk was exhausted normally; the
`self.scanning` flag was found cleared (a stop request took effect); or the
walk raised a fatal exception (line 196) while `self.scanning` was still
true. -/
inductive ScanEnd
  | exhausted
  | stopFlagSeen
  | fatal (msg : String)

/-- What a finished scan hands to the presentation layer: the final contents
of `self.file_list` (the snapshot shown by `populate_tree`), the terminal
status, and whether a scan-level error dialog was shown (line 197). -/
structure ScanOutcome where
  snapshot : List FileRec
  terminal : Terminal
  errorSurfaced : Bool

/-- `finalize_scan` (lines 218-245): final `sort_files`, then report
completion with the file count and the total size. -/
def finalize_scan (s : ScanState) : ScanOutcome :=
  { snapshot := sort_files s.file_list,
    terminal := Terminal.completed s.file_count (totalSize (sort_files s.file_list)),
    errorSurfaced := false }

/-- `scan_cancelled` (lines 247-255): still `sort_files`, then report the
partial count. -/
def scan_cancelled (s : ScanState) : ScanOutcome :=
  { snapshot := sort_files s.file_list,
    terminal := Terminal.cancelled s.file_count,
    errorSurfaced := false }

/-- `scan_folder` (lines 157-203) as spawned by `start_scan`: run the loop
over the processed walk items from the reset state, then dispatch on how the
walk ended.  Lines 200-203 test `self.scanning`: on a normal end and equally
after a fatal walk exception the flag is still true, so both reach
`finalize_scan`; only a stop request (which cleared the flag) reaches
`scan_cancelled`.  A fatal exception additionally pops the error dialog of
line 197. -/
def scan_folder (t : Nat) (processed : List WalkItem) (ending : ScanEnd) : ScanOutcome :=
  let s := runScan (initScanState t) processed
  match ending with
  | ScanEnd.exhausted => finalize_scan s
  | ScanEnd.stopFlagSeen => scan_cancelled s
  | ScanEnd.fatal _ => { finalize_scan s with errorSurfaced := true }

/-- The GUI-level scan state: the store plus the `self.scanning` flag. -/
structure GuiState where
  scan : ScanState
  scanning : Bool

/-- The state built by `__init__` (lines 26-33): empty `file_list`,
`scanning = False`, `sort_threshold = 100`, `files_since_sort = 0`. -/
def initGui : GuiState :=
  { scan := { file_list := [], file_count := 0, files_since_sort := 0, sort_threshold := 100 },
    scanning := false }

/-- What a call to `start_scan` did: `ignored` models the silent
`if self.scanning: return` guard (lines 127-129); `started` models the reset
plus launch of the scan thread. -/
inductive StartResult
  | ignored
  | started
deriving DecidableEq

/-- `start_scan` (lines 123-148): if a scan is already running, return
silently with nothing changed; otherwise clear the store and the dirty
counter, set the flag and launch the scan. -/
def start_scan (g : GuiState) : GuiState × StartResult :=
  if g.scanning then (g, StartResult.ignored)
  else
    ({ scan := { file_list := [], file_count := 0, files_since_sort := 0,
                 sort_threshold := g.scan.sort_threshold },
       scanning := true }, StartResult.started)

/-- The state threaded through the deletion loop of `delete_selected`
(lines 316-328): the set of paths that still physically exist, the `deleted`
counter, the `failed` list of (path, message) pairs, and `self.file_list`. -/
structure DelState where
  fs : List String
  deleted : Nat
  failed : List (String × String)
  file_list : List FileRec

/-- `os.remove(path)` against a filesystem modelled as the list of existing
paths plus a map `perm` giving the OS error message under which removing a
given (existing) path fails; removing an absent path raises
FileNotFoundError. -/
def osRemove (perm : String → Option String) (fs : List String) (path : String) :
    Except String (List String) :=
  if path ∈ fs then
    match perm path with
    | some msg => Except.error msg
    | none => Except.ok (fs.erase path)
  else Except.error "FileNotFoundError"

/-- One iteration of the deletion loop (lines 320-328): try `os.remove`; on
success bump `deleted` and remove the exact (size, path) entry from
`file_list` if it is present; on any exception append (path, message) to
`failed` and continue. -/
def deleteStep (perm : String → Option String) (st : DelState) (r : FileRec) : DelState :=
  match osRemove perm st.fs r.2 with
  | Except.ok fs2 =>
      { st with
        fs := fs2,
        deleted := st.deleted + 1,
        file_list := if r ∈ st.file_list then st.file_list.erase r else st.file_list }
  | Except.error msg => { st with failed := st.failed ++ [(r.2, msg)] }

/-- The deletion loop of `delete_selected` (lines 316-328), run over the
whole confirmed selection in order. -/
def delete_selected (perm : String → Option String) (fs : List String)
    (file_list : List FileRec) (selected : List FileRec) : DelState :=
  selected.foldl (deleteStep perm)
    { fs := fs, deleted := 0, failed := [], file_list := file_list }

/- ### Helper lemmas about sorting and the scan loop -/

theorem sort_files_sorted (l : List FileRec) : List.Sorted sizeGe (sort_files l) :=
  List.sorted_insertionSort sizeGe l

theorem sort_files_perm (l : List FileRec) : (sort_files l).Perm l :=
  List.perm_insertionSort sizeGe l

theorem resortIfDue_file_list_perm (s : ScanState) :
    ((resortIfDue s).file_list).Perm s.file_list := by
  unfold resortIfDue
  split
  · exact sort_files_perm s.file_list
  · exact List.Perm.refl _

theorem resortIfDue_file_count (s : ScanState) :
    (resortIfDue s).file_count = s.file_count := by
  unfold resortIfDue
  split <;> rfl

theorem resortIfDue_sort_threshold (s : ScanState) :
    (resortIfDue s).sort_threshold = s.sort_threshold := by
  unfold resortIfDue
  split <;> rfl

theorem runScan_file_list_perm (items : List WalkItem) (s : ScanState) :
    ((runScan s items).file_list).Perm (s.file_list ++ oks items) := by
  induction items generalizing s with
  | nil => simp [runScan, oks]
  | cons it rest ih =>
      cases it with
      | skipErr =>
          have h := ih s
          simpa [runScan, processEntry, oks] using h
      | ok size path =>
          have h1 := ih (processEntry s (WalkItem.ok size path))
          have h2 : ((processEntry s (WalkItem.ok size path)).file_list).Perm
              (s.file_list ++ [(size, path)]) := by
            have h := resortIfDue_file_list_perm
              { s with
                file_list := s.file_list ++ [(size, path)],
                file_count := s.file_count + 1,
                files_since_sort := s.files_since_sort + 1 }
            simpa [processEntry] using h
          have h3 : (runScan s (WalkItem.ok size path :: rest)).file_list.Perm
              ((s.file_list ++ [(size, path)]) ++ oks rest) := by
            have he : runScan s (WalkItem.ok size path :: rest)
                = runScan (processEntry s (WalkItem.ok size path)) rest := rfl
            rw [he]
            exact h1.trans (h2.append_right (oks rest))
          have h4 : (s.file_list ++ [(size, path)]) ++ oks rest
              = s.file_list ++ oks (WalkItem.ok size path :: rest) := by
            rw [List.append_assoc]
            rfl
          rw [h4] at h3
          exact h3

theorem runScan_file_count (items : List WalkItem) (s : ScanState) :
    (runScan s items).file_count = s.file_count + (oks items).length := by
  induction items generalizing s with
  | nil => simp [runScan, oks]
  | cons it rest ih =>
      cases it with
      | skipErr =>
          have h := ih s
          simpa [runScan, processEntry, oks] using h
      | ok size path =>
          have h1 := ih (processEntry s (WalkItem.ok size path))
          have h2 : (processEntry s (WalkItem.ok size path)).file_count
              = s.file_count + 1 := by
            simp [processEntry, resortIfDue_file_count]
          have he : runScan s (WalkItem.ok size path :: rest)
              = runScan (processEntry s (WalkItem.ok size path)) rest := rfl
          rw [he, h1, h2]
          simp [oks]
          omega

theorem runScan_sort_threshold (items : List WalkItem) (s : ScanState) :
    (runScan s items).sort_threshold = s.sort_threshold := by
  induction items generalizing s with
  | nil => rfl
  | cons it rest ih =>
      have he : runScan s (it :: rest) = runScan (processEntry s it) rest := rfl
      rw [he, ih]
      cases it with
      | skipErr => rfl
      | ok size path => simp [processEntry, resortIfDue_sort_threshold]

theorem processEntry_fss (s : ScanState) (it : WalkItem)
    (h : s.files_since_sort < s.sort_threshold ∨ s.files_since_sort = 0) :
    (processEntry s it).files_since_sort < s.sort_threshold ∨
      (processEntry s it).files_since_sort = 0 := by
  cases it with
  | skipErr => exact h
  | ok size path =>
      by_cases hc : s.sort_threshold ≤ s.files_since_sort + 1
      · right
        simp [processEntry, resortIfDue, hc]
      · left
        have he : (processEntry s (WalkItem.ok size path)).files_since_sort
            = s.files_since_sort + 1 := by
          simp [processEntry, resortIfDue, hc]
        omega

theorem processEntry_sort_threshold (s : ScanState) (it : WalkItem) :
    (processEntry s it).sort_threshold = s.sort_threshold := by
  cases it with
  | skipErr => rfl
  | ok size path => simp [processEntry, resortIfDue_sort_threshold]

theorem runScan_fss (items : List WalkItem) (s : ScanState)
    (h : s.files_since_sort < s.sort_threshold ∨ s.files_since_sort = 0) :
    (runScan s items).files_since_sort < s.sort_threshold ∨
      (runScan s items).files_since_sort = 0 := by
  induction items generalizing s with
  | nil => exact h
  | cons it rest ih =>
      have hthr := processEntry_sort_threshold s it
      have h1 := processEntry_fss s it h
      have h2 : (processEntry s it).files_since_sort < (processEntry s it).sort_threshold ∨
          (processEntry s it).files_since_sort = 0 := by
        rw [hthr]
        exact h1
      have h3 := ih (processEntry s it) h2
      rw [hthr] at h3
      exact h3

/- ### Helper lemmas about the deletion loop -/

theorem deleteFold_count (perm : String → Option String) (selected : List FileRec)
    (st : DelState) :
    (selected.foldl (deleteStep perm) st).deleted
      + (selected.foldl (deleteStep perm) st).failed.length
      = st.deleted + st.failed.length + selected.length := by
  induction selected generalizing st with
  | nil => simp
  | cons a rest ih =>
      have h1 := ih (deleteStep perm st a)
      have h2 : (deleteStep perm st a).deleted + (deleteStep perm st a).failed.length
          = st.deleted + st.failed.length + 1 := by
        cases hh : osRemove perm st.fs a.2 with
        | ok fs2 =>
            simp [deleteStep, hh]
            omega
        | error msg =>
            simp [deleteStep, hh]
            omega
      have he : List.foldl (deleteStep perm) st (a :: rest)
          = List.foldl (deleteStep perm) (deleteStep perm st a) rest := rfl
      rw [he, h1, h2]
      simp only [List.length_cons]
      omega

theorem deleteFold_failed_mem (perm : String → Option String) (selected : List FileRec)
    (st : DelState) :
    ∀ f ∈ (selected.foldl (deleteStep perm) st).failed,
      f ∈ st.failed ∨ f.1 ∈ selected.map Prod.snd := by
  induction selected generalizing st with
  | nil =>
      intro f hf
      exact Or.inl hf
  | cons a rest ih =>
      intro f hf
      have he : List.foldl (deleteStep perm) st (a :: rest)
          = List.foldl (deleteStep perm) (deleteStep perm st a) rest := rfl
      rw [he] at hf
      rcases ih (deleteStep perm st a) f hf with h1 | h1
      · cases hh : osRemove perm st.fs a.2 with
        | ok fs2 =>
            simp [deleteStep, hh] at h1
            exact Or.inl h1
        | error msg =>
            simp [deleteStep, hh] at h1
            rcases h1 with h1 | h1
            · exact Or.inl h1
            · right
              rw [h1]
              simp
      · right
        simp
        right
        simpa using h1

theorem deleteFold_file_list_sublist (perm : String → Option String)
    (selected : List FileRec) (st : DelState) :
    ((selected.foldl (deleteStep perm) st).file_list).Sublist st.file_list := by
  induction selected generalizing st with
  | nil => exact List.Sublist.refl _
  | cons a rest ih =>
      have h1 := ih (deleteStep perm st a)
      have h2 : ((deleteStep perm st a).file_list).Sublist st.file_list := by
        cases hh : osRemove perm st.fs a.2 with
        | ok fs2 =>
            simp only [deleteStep, hh]
            split
            · exact List.erase_sublist a st.file_list
            · exact List.Sublist.refl _
        | error msg =>
            simp [deleteStep, hh]
      have he : List.foldl (deleteStep perm) st (a :: rest)
          = List.foldl (deleteStep perm) (deleteStep perm st a) rest := rfl
      rw [he]
      exact h1.trans h2

theorem deleteFold_all_ok (perm : String → Option String) (selected : List FileRec) :
    ∀ st : DelState,
      (selected.map Prod.snd).Nodup →
      (∀ r ∈ selected, r.2 ∈ st.fs ∧ perm r.2 = none) →
      st.file_list.Nodup →
      (selected.foldl (deleteStep perm) st).failed = st.failed ∧
      (selected.foldl (deleteStep perm) st).deleted = st.deleted + selected.length ∧
      ∀ r ∈ selected, r ∉ (selected.foldl (deleteStep perm) st).file_list := by
  induction selected with
  | nil =>
      intro st _ _ _
      exact ⟨rfl, by simp, by simp⟩
  | cons a rest ih =>
      intro st hnd hex hfl
      obtain ⟨ha_fs, ha_perm⟩ := hex a (List.mem_cons_self a rest)
      have hrem : osRemove perm st.fs a.2 = Except.ok (st.fs.erase a.2) := by
        unfold osRemove
        rw [if_pos ha_fs, ha_perm]
      have hstep : deleteStep perm st a =
          { st with
            fs := st.fs.erase a.2,
            deleted := st.deleted + 1,
            file_list := if a ∈ st.file_list then st.file_list.erase a
              else st.file_list } := by
        unfold deleteStep
        rw [hrem]
      rw [List.map_cons, List.nodup_cons] at hnd
      obtain ⟨hnd_a, hnd_rest⟩ := hnd
      have hex2 : ∀ r ∈ rest, r.2 ∈ (deleteStep perm st a).fs ∧ perm r.2 = none := by
        intro r hr
        obtain ⟨h1, h2⟩ := hex r (List.mem_cons_of_mem a hr)
        refine ⟨?_, h2⟩
        rw [hstep]
        have hne : r.2 ≠ a.2 := by
          intro heq
          exact hnd_a (heq ▸ List.mem_map_of_mem Prod.snd hr)
        exact (List.mem_erase_of_ne hne).mpr h1
      have hfl2 : (deleteStep perm st a).file_list.Nodup := by
        rw [hstep]
        by_cases hmem : a ∈ st.file_list
        · simpa [hmem] using hfl.erase a
        · simpa [hmem] using hfl
      obtain ⟨hfailed, hdel, habs⟩ := ih (deleteStep perm st a) hnd_rest hex2 hfl2
      have he : List.foldl (deleteStep perm) st (a :: rest)
          = List.foldl (deleteStep perm) (deleteStep perm st a) rest := rfl
      refine ⟨?_, ?_, ?_⟩
      · rw [he, hfailed, hstep]
      · rw [he, hdel, hstep]
        simp only [List.length_cons]
        omega
      · intro r hr
        rcases List.mem_cons.mp hr with hra | hrr
        · have hnot : a ∉ (deleteStep perm st a).file_list := by
            rw [hstep]
            by_cases hmem : a ∈ st.file_list
            · simp only [if_pos hmem]
              intro hcon
              exact (((hfl.mem_erase_iff).mp hcon).1) rfl
            · simp [hmem]
          rw [he, hra]
          intro hcon
          exact hnot
            ((deleteFold_file_list_sublist perm rest (deleteStep perm st a)).subset hcon)
        · rw [he]
          exact habs r hrr

/- ### Claim theorems -/

/-- C1: for every sequence of walk items processed during a scan and every
way the scan ends, the final snapshot (produced by the unconditional final
`sort_files`) is sorted descending by size: every pair — in particular every
adjacent pair (a, b) — satisfies a.size >= b.size. -/
theorem snapshot_sorted_after_finalize (t : Nat) (items : List WalkItem)
    (ending : ScanEnd) :
    List.Pairwise (fun a b : FileRec => b.1 ≤ a.1)
      (scan_folder t items ending).snapshot ∧
    List.Chain' (fun a b : FileRec => b.1 ≤ a.1)
      (scan_folder t items ending).snapshot := by
  have hs : (scan_folder t items ending).snapshot
      = sort_files (runScan (initScanState t) items).file_list := by
    cases ending <;> rfl
  rw [hs]
  exact ⟨sort_files_sorted _, (sort_files_sorted _).chain'⟩

/-- C2: cancelling after the first n walk items have been processed yields,
on the Cancelled path, a snapshot that is a permutation of exactly the
records appended before cancellation took effect (no record lost, none
duplicated), still fully sorted descending by size, and the Cancelled
terminal state carries the partial record count. -/
theorem cancelled_snapshot_exact (t n : Nat) (items : List WalkItem) :
    (scan_folder t (items.take n) ScanEnd.stopFlagSeen).snapshot.Perm
      (oks (items.take n)) ∧
    List.Pairwise (fun a b : FileRec => b.1 ≤ a.1)
      (scan_folder t (items.take n) ScanEnd.stopFlagSeen).snapshot ∧
    (scan_folder t (items.take n) ScanEnd.stopFlagSeen).terminal
      = Terminal.cancelled (oks (items.take n)).length := by
  have hs : (scan_folder t (items.take n) ScanEnd.stopFlagSeen).snapshot
      = sort_files (runScan (initScanState t) (items.take n)).file_list := rfl
  have ht : (scan_folder t (items.take n) ScanEnd.stopFlagSeen).terminal
      = Terminal.cancelled (runScan (initScanState t) (items.take n)).file_count := rfl
  refine ⟨?_, ?_, ?_⟩
  · rw [hs]
    have h1 := (sort_files_perm _).trans
      (runScan_file_list_perm (items.take n) (initScanState t))
    simpa [initScanState] using h1
  · rw [hs]
    exact sort_files_sorted _
  · rw [ht, runScan_file_count]
    simp [initScanState]

/-- C3: the deletion loop attempts every selected record: a failed removal
is recorded in `failed` as a (path, message) pair and the loop continues
with the next record, so the batch is never aborted early, the outcome
always satisfies deleted + length(failures) = length(input), and every
recorded failure names a path from the input selection. -/
theorem delete_processes_every_record (perm : String → Option String)
    (fs : List String) (file_list selected : List FileRec) :
    (delete_selected perm fs file_list selected).deleted
      + (delete_selected perm fs file_list selected).failed.length
      = selected.length ∧
    ∀ f ∈ (delete_selected perm fs file_list selected).failed,
      f.1 ∈ selected.map Prod.snd := by
  constructor
  · have h := deleteFold_count perm selected
      { fs := fs, deleted := 0, failed := [], file_list := file_list }
    simpa [delete_selected] using h
  · intro f hf
    have h := deleteFold_failed_mem perm selected
      { fs := fs, deleted := 0, failed := [], file_list := file_list } f hf
    rcases h with h | h
    · simp at h
    · exact h

/-- Witness for C3: one selected record whose file is already gone is
attempted, recorded as a failure, and counted. -/
theorem delete_processes_every_record_witness :
    (delete_selected (fun _ => none) [] [] [(1, "a")]).deleted
      + (delete_selected (fun _ => none) [] [] [(1, "a")]).failed.length = 1 ∧
    ("a", "FileNotFoundError").1 ∈ ([(1, "a")] : List FileRec).map Prod.snd := by
  have h := delete_processes_every_record (fun _ => none) [] [] [(1, "a")]
  exact ⟨h.1, h.2 ("a", "FileNotFoundError") (by decide)⟩

/-- A running scan state used as a concrete input below. -/
def runningGui : GuiState :=
  { scan := { file_list := [(7, "x")], file_count := 1, files_since_sort := 1,
              sort_threshold := 100 },
    scanning := true }

/-- C4 counterexample: calling `start_scan` during a running scan does not
fail with InvalidStateError — no such error (nor any raise) exists in the
source; the guard `if self.scanning: return` (lines 127-129) makes the
second call a silent no-op, returning with the state unchanged. -/
theorem start_scan_silent_cex :
    start_scan runningGui = (runningGui, StartResult.ignored) := rfl

/-- C4 (amended): calling `start_scan` while a scan is already running is
rejected synchronously as a silent no-op: the call returns immediately with
all scan state (store contents, session flags, counters) unchanged, and no
InvalidStateError or other error is raised. -/
theorem start_scan_while_running_noop (g : GuiState) (h : g.scanning = true) :
    start_scan g = (g, StartResult.ignored) := by
  unfold start_scan
  rw [h]
  simp

/-- Witness for the amended C4 at the concrete running state. -/
theorem start_scan_while_running_noop_witness :
    runningGui.scanning = true ∧
    start_scan runningGui = (runningGui, StartResult.ignored) :=
  ⟨rfl, start_scan_while_running_noop runningGui rfl⟩

/-- C5 counterexample: a fatal walk error with one record already collected
ends in the Completed terminal state ("Scan complete: 1 files found"), not a
Cancelled-equivalent one: lines 200-203 dispatch on `self.scanning`, which a
fatal exception leaves true, so the error path reaches `finalize_scan`. -/
theorem fatal_scan_completed_cex :
    (scan_folder 100 [WalkItem.ok 5 "a"] (ScanEnd.fatal "boom")).terminal
        = Terminal.completed 1 5 ∧
    (scan_folder 100 [WalkItem.ok 5 "a"] (ScanEnd.fatal "boom")).terminal.isCancelled
        = false :=
  ⟨rfl, rfl⟩

/-- C5 (amended): when the traversal root itself fails while the scan is
running, the failure is surfaced as a scan-level error dialog, and the scan
then transitions to the Completed terminal path (`finalize_scan`) — not to a
Cancelled-equivalent state — with the zero or partial records collected so
far, which are still presented fully sorted descending by size. -/
theorem fatal_scan_surfaces_and_finalizes (t : Nat) (items : List WalkItem)
    (msg : String) :
    (scan_folder t items (ScanEnd.fatal msg)).errorSurfaced = true ∧
    (scan_folder t items (ScanEnd.fatal msg)).terminal.isCancelled = false ∧
    (scan_folder t items (ScanEnd.fatal msg)).snapshot.Perm (oks items) ∧
    List.Pairwise (fun a b : FileRec => b.1 ≤ a.1)
      (scan_folder t items (ScanEnd.fatal msg)).snapshot := by
  have hs : (scan_folder t items (ScanEnd.fatal msg)).snapshot
      = sort_files (runScan (initScanState t) items).file_list := rfl
  refine ⟨rfl, rfl, ?_, ?_⟩
  · rw [hs]
    have h1 := (sort_files_perm _).trans
      (runScan_file_list_perm items (initScanState t))
    simpa [initScanState] using h1
  · rw [hs]
    exact sort_files_sorted _

/-- C6: the periodic resort `resortIfDue` performs a full descending-by-size
sort of the entire collection and resets the dirty counter to 0 exactly when
the dirty counter has reached the threshold; below the threshold it changes
nothing; and the threshold configured by `__init__` defaults to 100. -/
theorem resortIfDue_threshold_behavior (s : ScanState) :
    (s.sort_threshold ≤ s.files_since_sort →
      (resortIfDue s).file_list = sort_files s.file_list ∧
      List.Pairwise (fun a b : FileRec => b.1 ≤ a.1) (resortIfDue s).file_list ∧
      ((resortIfDue s).file_list).Perm s.file_list ∧
      (resortIfDue s).files_since_sort = 0) ∧
    (s.files_since_sort < s.sort_threshold → resortIfDue s = s) ∧
    initGui.scan.sort_threshold = 100 := by
  refine ⟨?_, ?_, rfl⟩
  · intro h
    have he : resortIfDue s
        = { s with file_list := sort_files s.file_list, files_since_sort := 0 } := by
      unfold resortIfDue
      rw [if_pos h]
    rw [he]
    exact ⟨rfl, sort_files_sorted _, sort_files_perm _, rfl⟩
  · intro h
    unfold resortIfDue
    rw [if_neg (by omega)]

/-- Witness for C6 at concrete states on both sides of the threshold. -/
theorem resortIfDue_threshold_behavior_witness :
    (resortIfDue
      { file_list := [(1, "a"), (2, "b")], file_count := 2,
        files_since_sort := 100, sort_threshold := 100 }).files_since_sort = 0 ∧
    resortIfDue
      { file_list := [(1, "a"), (2, "b")], file_count := 2,
        files_since_sort := 5, sort_threshold := 100 }
      = { file_list := [(1, "a"), (2, "b")], file_count := 2,
          files_since_sort := 5, sort_threshold := 100 } :=
  ⟨((resortIfDue_threshold_behavior
      { file_list := [(1, "a"), (2, "b")], file_count := 2,
        files_since_sort := 100, sort_threshold := 100 }).1 (by decide)).2.2.2,
   (resortIfDue_threshold_behavior
      { file_list := [(1, "a"), (2, "b")], file_count := 2,
        files_since_sort := 5, sort_threshold := 100 }).2.1 (by decide)⟩

/-- C7: any resort — the periodic `resortIfDue` as well as the plain
`sort_files` used when finalizing — only permutes the store: the multiset of
(size, path) records is identical before and after, so no record is added,
dropped or modified by sorting. -/
theorem resort_preserves_multiset (s : ScanState) (l : List FileRec) :
    ((sort_files l : Multiset FileRec)) = (l : Multiset FileRec) ∧
    (((resortIfDue s).file_list : Multiset FileRec))
      = (s.file_list : Multiset FileRec) :=
  ⟨Multiset.coe_eq_coe.mpr (sort_files_perm l),
   Multiset.coe_eq_coe.mpr (resortIfDue_file_list_perm s)⟩

/-- C8: deleting a non-empty selection of records with pairwise-distinct
paths, all of whose files physically exist and are removable, from a store
whose records also carry pairwise-distinct paths (as one scan produces),
yields `failed = []`, `deleted = length(selection)`, and every deleted
record is absent from the store afterwards. -/
theorem delete_all_existing_succeeds (perm : String → Option String)
    (fs : List String) (file_list selected : List FileRec)
    (_hne : selected ≠ [])
    (hsel : (selected.map Prod.snd).Nodup)
    (hex : ∀ r ∈ selected, r.2 ∈ fs ∧ perm r.2 = none)
    (hfl : (file_list.map Prod.snd).Nodup) :
    (delete_selected perm fs file_list selected).failed = [] ∧
    (delete_selected perm fs file_list selected).deleted = selected.length ∧
    ∀ r ∈ selected, r ∉ (delete_selected perm fs file_list selected).file_list := by
  have h := deleteFold_all_ok perm selected
    { fs := fs, deleted := 0, failed := [], file_list := file_list }
    hsel hex (List.Nodup.of_map Prod.snd hfl)
  obtain ⟨h1, h2, h3⟩ := h
  have hd : delete_selected perm fs file_list selected
      = selected.foldl (deleteStep perm)
          { fs := fs, deleted := 0, failed := [], file_list := file_list } := rfl
  rw [hd]
  refine ⟨h1, ?_, h3⟩
  rw [h2]
  simp

/-- Witness for C8: deleting two existing files out of a three-record
store. -/
theorem delete_all_existing_succeeds_witness :
    (delete_selected (fun _ => none) ["a", "b"] [(5, "a"), (3, "b"), (1, "c")]
        [(5, "a"), (3, "b")]).failed = [] ∧
    (delete_selected (fun _ => none) ["a", "b"] [(5, "a"), (3, "b"), (1, "c")]
        [(5, "a"), (3, "b")]).deleted = 2 ∧
    (5, "a") ∉ (delete_selected (fun _ => none) ["a", "b"]
        [(5, "a"), (3, "b"), (1, "c")] [(5, "a"), (3, "b")]).file_list := by
  have h := delete_all_existing_succeeds (fun _ => none) ["a", "b"]
    [(5, "a"), (3, "b"), (1, "c")] [(5, "a"), (3, "b")]
    (by decide) (by decide) (by decide) (by decide)
  exact ⟨h.1, h.2.1, h.2.2 (5, "a") (by decide)⟩

/-- C9: throughout a scan started by `start_scan` (dirty counter reset to 0),
after any number of processed entries the dirty counter `files_since_sort`
never exceeds the threshold, and whenever it reaches the threshold it has
been reset to 0 within that entry — so it is always 0 or strictly below the
threshold after each entry completes. -/
theorem files_since_sort_bounded (t k : Nat) (items : List WalkItem) :
    (runScan (initScanState t) (items.take k)).files_since_sort ≤ t ∧
    ((runScan (initScanState t) (items.take k)).files_since_sort < t ∨
      (runScan (initScanState t) (items.take k)).files_since_sort = 0) := by
  have h := runScan_fss (items.take k) (initScanState t) (Or.inr rfl)
  have h2 : (runScan (initScanState t) (items.take k)).files_since_sort < t ∨
      (runScan (initScanState t) (items.take k)).files_since_sort = 0 := h
  refine ⟨?_, h2⟩
  rcases h2 with h3 | h3
  · exact Nat.le_of_lt h3
  · rw [h3]
    exact Nat.zero_le t

/-- C10: the running record count equals the store length at every step of
the scan loop — both start at zero after the `start_scan` reset — and the
count reported by the Completed terminal state equals the length of the
finalized snapshot (whose total size it also reports). -/
theorem file_count_matches_store (t k : Nat) (items : List WalkItem) :
    ((initScanState t).file_count = 0 ∧ (initScanState t).file_list = []) ∧
    (runScan (initScanState t) (items.take k)).file_count
      = (runScan (initScanState t) (items.take k)).file_list.length ∧
    (scan_folder t items ScanEnd.exhausted).terminal
      = Terminal.completed (scan_folder t items ScanEnd.exhausted).snapshot.length
          (totalSize (scan_folder t items ScanEnd.exhausted).snapshot) := by
  refine ⟨⟨rfl, rfl⟩, ?_, ?_⟩
  · rw [runScan_file_count]
    have hp := runScan_file_list_perm (items.take k) (initScanState t)
    rw [hp.length_eq]
    simp [initScanState]
  · have hcount : (runScan (initScanState t) items).file_count
        = (sort_files (runScan (initScanState t) items).file_list).length := by
      rw [runScan_file_count, (sort_files_perm _).length_eq,
        (runScan_file_list_perm items (initScanState t)).length_eq]
      simp [initScanState]
    have hs : (scan_folder t items ScanEnd.exhausted).snapshot
        = sort_files (runScan (initScanState t) items).file_list := rfl
    have ht : (scan_folder t items ScanEnd.exhausted).terminal
        = Terminal.completed (runScan (initScanState t) items).file_count
            (totalSize (sort_files (runScan (initScanState t) items).file_list)) := rfl
    rw [ht, hs, hcount]
